/-
Verification of the slipsense core pipeline (src/src/App.jsx) against its
natural-language specification.  The JavaScript source is shallowly embedded:
timestamps are integers (milliseconds), numeric fields are rationals, and the
trigonometric grid/distance computations live over the reals.  JS `null` and
`NaN` are modelled with `Option`.
-/
import Mathlib

/-! ### Character-level helpers modelling JS string primitives -/

/-- Whitespace test used by `trimChars` (models the characters JS `trim` strips
for the inputs that occur here). -/
def isSpace (c : Char) : Bool :=
  decide (c = ' ') || decide (c = '\t') || decide (c = '\n') || decide (c = '\r')

/-- Models JS `String.prototype.trim` on a character list. -/
def trimChars (l : List Char) : List Char :=
  ((l.dropWhile isSpace).reverse.dropWhile isSpace).reverse

/-- Models JS `String.prototype.split` with a single-character separator:
`"a/b".split("/") = ["a","b"]`, `"".split("/") = [""]`. -/
def splitOnChar (sep : Char) : List Char → List (List Char)
  | [] => [[]]
  | c :: cs =>
    let rest := splitOnChar sep cs
    if c = sep then [] :: rest
    else
      match rest with
      | [] => [[c]]
      | r :: rs => (c :: r) :: rs

/-- Numeric value of a digit run (most significant first). -/
def natOfDigits (l : List Char) : ℕ :=
  l.foldl (fun n c => 10 * n + (c.toNat - 48)) 0

/-- Assembles a signed decimal from integer digits `ip` and fraction digits `fr`:
the rational `±(ip.fr)`, written with `mkRat` so it evaluates. -/
def decOfParts (neg : Bool) (ip fr : List Char) : ℚ :=
  mkRat ((if neg then -1 else 1) *
    ((natOfDigits ip : ℤ) * (10 : ℤ) ^ fr.length + (natOfDigits fr : ℤ)))
    ((10 : ℕ) ^ fr.length)

/-- Splits an optional leading sign off a character list. -/
def splitSign (cs : List Char) : Bool × List Char :=
  match cs with
  | '-' :: r => (true, r)
  | '+' :: r => (false, r)
  | _ => (false, cs)

/-- Models JS unary `+` (ToNumber) on strings of the shapes the source feeds it:
trimmed empty string is `0`, a plain decimal numeral is its value, and any
other string is `NaN`, encoded as `none`.  (Hex/exponent forms never occur.) -/
def jsPlus (cs : List Char) : Option ℚ :=
  let t := trimChars cs
  if t.isEmpty then some 0
  else
    let s := splitSign t
    let ip := s.2.takeWhile Char.isDigit
    let rest := s.2.drop ip.length
    match rest with
    | [] => if ip.isEmpty then none else some (decOfParts s.1 ip [])
    | '.' :: fr =>
      if fr.all Char.isDigit && !(ip.isEmpty && fr.isEmpty) then
        some (decOfParts s.1 ip fr)
      else none
    | _ => none

/-- Models JS `parseInt(x, 10)`: optional sign, then the longest leading digit
run (trailing junk ignored); no digits at all is `NaN`, encoded as `none`. -/
def jsParseInt (cs : List Char) : Option ℚ :=
  let t := trimChars cs
  let s := splitSign t
  let ip := s.2.takeWhile Char.isDigit
  if ip.isEmpty then none else some (decOfParts s.1 ip [])

/-- Models JS `parseFloat`: optional sign, longest leading decimal numeral
(with optional fractional part), trailing junk ignored; no leading numeral is
`NaN`, encoded as `none`. -/
def jsParseFloat (cs : List Char) : Option ℚ :=
  let t := trimChars cs
  let s := splitSign t
  let ip := s.2.takeWhile Char.isDigit
  let rest := s.2.drop ip.length
  match rest with
  | '.' :: r2 =>
    let fr := r2.takeWhile Char.isDigit
    if ip.isEmpty && fr.isEmpty then none else some (decOfParts s.1 ip fr)
  | _ => if ip.isEmpty then none else some (decOfParts s.1 ip [])

/-- Models JS `String.prototype.replace(",", ".")`, which replaces only the
first occurrence. -/
def replaceFirstComma : List Char → List Char
  | [] => []
  | c :: cs => if c = ',' then '.' :: cs else c :: replaceFirstComma cs

/-! ### DateNormalizer (`parseLocalDate`, App.jsx lines 8-25) -/

/-- The six arguments the source hands to `new Date(year, month-1, day, hh, mm, ss)`.
`monthIndex` is the 0-based month exactly as passed to the JS constructor. -/
structure DateParts where
  year : ℚ
  monthIndex : ℚ
  day : ℚ
  hour : ℚ
  minute : ℚ
  second : ℚ
deriving DecidableEq

/-- JS `>` against a possibly-NaN number: `NaN > b` is `false`. -/
def optGt (a : Option ℚ) (b : ℚ) : Bool :=
  match a with
  | some x => decide (b < x)
  | none => false

/-- JS `<` against a possibly-NaN number: `NaN < b` is `false`. -/
def optLt (a : Option ℚ) (b : ℚ) : Bool :=
  match a with
  | some x => decide (x < b)
  | none => false

/-- Models `new Date(y, mo, d, hh, mm, ss)`: any `NaN` (or `undefined`)
component yields an Invalid Date, encoded as `none`. -/
def mkJsDate (y mo d hh mm ss : Option ℚ) : Option DateParts :=
  match y, mo, d, hh, mm, ss with
  | some y, some mo, some d, some hh, some mm, some ss => some ⟨y, mo, d, hh, mm, ss⟩
  | _, _, _, _, _, _ => none

/-- Shallow embedding of `parseLocalDate(dateStr, timeStr)`.  `generic` is the
browser's `new Date(string)` parser used by the non-3-token fallback branch; it
is kept abstract.  The outer `Option` is JS `null` (returned only for a falsy
`dateStr`; the `catch` is unreachable because `new Date` never throws), the
inner `Option` is Invalid Date. -/
def parseLocalDate (generic : List Char → Option DateParts)
    (dateStr timeStr : Option String) : Option (Option DateParts) :=
  match dateStr with
  | none => none
  | some s =>
    if s.data.isEmpty then none
    else
      let sdate := trimChars s.data
      let stime := trimChars (match timeStr with
        | none => ("00:00:00").data
        | some ts => if ts.data.isEmpty then ("00:00:00").data else ts.data)
      let t := stime.map (fun c => if c = '.' then ':' else c)
      let d := if sdate.contains '/' then splitOnChar '/' sdate else splitOnChar '-' sdate
      if d.length = 3 then
        let tok0 := jsPlus (d.getD 0 [])
        let tok1 := jsPlus (d.getD 1 [])
        let tok2 := jsPlus (d.getD 2 [])
        let day := if optGt tok0 31 then tok2 else tok0
        let month := tok1
        let year0 := if optGt tok0 31 then tok0 else tok2
        let year1 := if optGt year0 2400 then year0.map (fun y => y - 543) else year0
        let year := if optLt year1 100 then year1.map (fun y => y + 2000) else year1
        let parts := (splitOnChar ':' t).map
          (fun x => jsParseInt (if x.isEmpty then ("0").data else x))
        let hh := (parts.get? 0).join
        let mm := (parts.get? 1).join
        let ss := (parts.get? 2).join
        some (mkJsDate year (month.map (fun m => m - 1)) day hh mm ss)
      else
        some (generic (sdate ++ [' '] ++ t))

/-! ### Ingestion (`handleFile`, App.jsx lines 61-82) -/

/-- One raw CSV row as PapaParse delivers it: each recognized column is either
absent (`none`) or a string.  `MI` stands for the source's "M/I" column. -/
structure RawRow where
  DATE : Option String := none
  TIME : Option String := none
  LAT : Option String := none
  Latitude : Option String := none
  LONG : Option String := none
  LON : Option String := none
  Longitude : Option String := none
  MI : Option String := none
  MAG : Option String := none
  M : Option String := none
  LOCATE : Option String := none
  PLACE : Option String := none

/-- A row that survived `handleFile`'s per-row mapping.  `date` is the JS Date
object produced by `parseLocalDate` (`none` here means Invalid Date — the
object itself, being truthy, passed the `!dt` check). -/
structure ParsedRow where
  date : Option DateParts
  lat : ℚ
  lon : ℚ
  mag : ℚ
  locate : String
deriving DecidableEq

/-- JS `a || b` on optional strings: the empty string is falsy. -/
def jsOrS (a b : Option String) : Option String :=
  match a with
  | some s => if s.data.isEmpty then b else some s
  | none => b

/-- Models an alias chain such as `(r["LAT"] || r["Latitude"] || "")`. -/
def aliasStr (fields : List (Option String)) : String :=
  (fields.foldr (fun a b => jsOrS a b) (some "")).getD ""

/-- Numeric column extraction: alias chain, first comma replaced by a dot,
then `parseFloat`. -/
def numField (fields : List (Option String)) : Option ℚ :=
  jsParseFloat (replaceFirstComma (aliasStr fields).data)

/-- One step of `handleFile`'s `.map`: returns `none` (dropped) exactly when
the source's `!dt || Number.isNaN(lat) || Number.isNaN(lon) || Number.isNaN(mag)`
check fires.  Note that `!dt` only catches JS `null`, not Invalid Date. -/
def handleFileRow (g : List Char → Option DateParts) (r : RawRow) : Option ParsedRow :=
  let dt := parseLocalDate g r.DATE r.TIME
  let lat := numField [r.LAT, r.Latitude]
  let lon := numField [r.LONG, r.LON, r.Longitude]
  let mag := numField [r.MI, r.MAG, r.M]
  match dt, lat, lon, mag with
  | some d, some la, some lo, some mg =>
    some ⟨d, la, lo, mg, (jsOrS r.LOCATE (jsOrS r.PLACE (some "-"))).getD "-"⟩
  | _, _, _, _ => none

/-- The row pipeline of `handleFile`: per-row parse and silent drop.  The
subsequent sort by date is a permutation and is modelled at the core layer. -/
def handleFileRows (g : List Char → Option DateParts) (rows : List RawRow) : List ParsedRow :=
  rows.filterMap (handleFileRow g)

/-! ### Core data model -/

/-- A parsed seismic event as consumed by the core: `date` is the timestamp in
milliseconds (`Date.getTime()`), coordinates and magnitude are numbers. -/
structure Event where
  date : ℤ
  lat : ℚ
  lon : ℚ
  mag : ℚ
  locate : String
deriving DecidableEq

/-- The four caller-supplied configuration numbers. -/
structure Params where
  cellKm : ℚ
  lookbackDays : ℚ
  horizonDays : ℚ
  magThreshold : ℚ

/-! ### DistanceMetric (`haversineKm`, App.jsx lines 27-36) -/

/-- Great-circle distance in km, exactly as the source computes it. -/
noncomputable def haversineKm (aLat aLon bLat bLon : ℝ) : ℝ :=
  let toRad : ℝ → ℝ := fun deg => deg * Real.pi / 180
  let dLat := toRad (bLat - aLat)
  let dLon := toRad (bLon - aLon)
  let lat1 := toRad aLat
  let lat2 := toRad bLat
  let a := Real.sin (dLat / 2) ^ 2 +
    Real.cos lat1 * Real.cos lat2 * Real.sin (dLon / 2) ^ 2
  2 * 6371 * Real.arcsin (Real.sqrt a)

/-! ### SpatialGridIndex (`groupByGrid`, App.jsx lines 38-49) -/

/-- JS `x || d` on a number: `0` (and `NaN`, which cannot arise here over ℝ)
falls back to `d`. -/
noncomputable def jsOr (x d : ℝ) : ℝ := if x = 0 then d else x

/-- The grid cell key `(gx, gy)` of an event (the source's template string
key `gx,gy` is injective in the pair).  `gx` divides the longitude by
`degLat * cos(lat in radians)` with fallback divisor 1 — note the source
multiplies by the cosine. -/
noncomputable def cellKey (cellKm : ℚ) (r : Event) : ℤ × ℤ :=
  let degLat : ℝ := (cellKm : ℝ) / 111
  (⌊(r.lon : ℝ) / jsOr (degLat * Real.cos ((r.lat : ℝ) * Real.pi / 180)) 1⌋,
   ⌊(r.lat : ℝ) / degLat⌋)

/-- Appends `a` to the group keyed `k`, or appends a fresh group at the end —
exactly the insertion-order behaviour of the source's `Map`. -/
def addToGroups {α κ : Type} [DecidableEq κ] (k : κ) (a : α) :
    List (κ × List α) → List (κ × List α)
  | [] => [(k, [a])]
  | g :: rest => if k = g.1 then (g.1, g.2 ++ [a]) :: rest else g :: addToGroups k a rest

/-- Groups a list by a key function, preserving first-occurrence key order and
within-group element order (the source's `Map`/`forEach` iteration order). -/
def groupByKey {α κ : Type} [DecidableEq κ] (key : α → κ) (l : List α) :
    List (κ × List α) :=
  l.foldl (fun acc a => addToGroups (key a) a acc) []

/-- Shallow embedding of `groupByGrid(rows, cellKm)`. -/
noncomputable def groupByGrid (cellKm : ℚ) (rows : List Event) :
    List ((ℤ × ℤ) × List Event) :=
  groupByKey (cellKey cellKm) rows

/-- Modelled from the spec (§4.3): the claimed `gx` with
`degLon = degLat / cos(latitude in radians)` and fallback divisor 1 at the
poles; used only to compare against the source's `cellKey`. -/
noncomputable def gridGxSpec (cellKm : ℚ) (r : Event) : ℤ :=
  let degLat : ℝ := (cellKm : ℝ) / 111
  let c := Real.cos ((r.lat : ℝ) * Real.pi / 180)
  let degLon := if c = 0 then 1 else degLat / c
  ⌊(r.lon : ℝ) / degLon⌋

/-! ### FeatureBuilder/Training (`buildDataset`, App.jsx lines 84-106) -/

/-- Stable insertion by ascending date (JS `sort((a,b)=>a.date-b.date)` is
stable). -/
def insertByDate (e : Event) : List Event → List Event
  | [] => [e]
  | x :: xs => if e.date ≤ x.date then e :: x :: xs else x :: insertByDate e xs

/-- Stable sort by ascending date. -/
def sortByDate : List Event → List Event
  | [] => []
  | e :: es => insertByDate e (sortByDate es)

/-- The feature vector and label computed for `cur` against the (sorted) rows
of its cell — the body of the source's inner `for` loop. -/
def exampleFor (P : Params) (cellRows : List Event) (cur : Event) : List ℚ × ℕ :=
  let t : ℚ := (cur.date : ℚ)
  let lookStart : ℚ := t - P.lookbackDays * 24 * 3600 * 1000
  let past := cellRows.filter fun r => decide (lookStart ≤ (r.date : ℚ) ∧ (r.date : ℚ) < t)
  let cnt := past.length
  let avgMag : ℚ := if cnt = 0 then 0 else ((past.map Event.mag).sum) / cnt
  let lastTime : ℚ :=
    match past.getLast? with
    | some p => (t - (p.date : ℚ)) / 3600000
    | none => 999999
  let horizonEnd : ℚ := t + P.horizonDays * 24 * 3600 * 1000
  let future := cellRows.filter fun r => decide (t < (r.date : ℚ) ∧ (r.date : ℚ) ≤ horizonEnd)
  let label : ℕ := if future.any (fun fe => decide (P.magThreshold ≤ fe.mag)) then 1 else 0
  ([cur.lat, cur.lon, (cnt : ℚ), avgMag, lastTime], label)

/-- The training examples one grid cell emits: its rows sorted by date, one
example per row except the last (`i < cellRows.length - 1`). -/
def cellExamples (P : Params) (cellRows : List Event) : List (List ℚ × ℕ) :=
  let sorted := sortByDate cellRows
  sorted.dropLast.map (exampleFor P sorted)

/-- Shallow embedding of `buildDataset(rows)`: the concatenation, in grid
insertion order, of every cell's examples (each entry pairs the feature vector
`X[i]` with the label `y[i]`). -/
noncomputable def buildDataset (P : Params) (rows : List Event) : List (List ℚ × ℕ) :=
  (groupByGrid P.cellKm rows).foldr (fun c acc => cellExamples P c.2 ++ acc) []

/-! ### Normalizer (`tf.moments` / `sub` / `div`, App.jsx lines 127-131) -/

/-- Column mean (`tf.moments` along axis 0). -/
noncomputable def colMean (xs : List ℝ) : ℝ := xs.sum / xs.length

/-- Column population variance (`tf.moments` along axis 0). -/
noncomputable def colVar (xs : List ℝ) : ℝ :=
  ((xs.map fun x => (x - colMean xs) ^ 2).sum) / xs.length

/-- Column standard deviation. -/
noncomputable def stdOf (xs : List ℝ) : ℝ := Real.sqrt (colVar xs)

/-- The source's epsilon floor `1e-6`. -/
noncomputable def epsTf : ℝ := 1 / 1000000

/-- The divisor the source uses: `tf.sqrt(variance).add(1e-6)`. -/
noncomputable def stdEps (xs : List ℝ) : ℝ := stdOf xs + epsTf

/-- Z-score normalization of a column with its own fitted parameters:
`(x - mean) / (sqrt variance + 1e-6)`. -/
noncomputable def normalizeCol (xs : List ℝ) : List ℝ :=
  xs.map fun x => (x - colMean xs) / stdEps xs

/-! ### Inference features and RiskScorer (`trainAndPredict`, App.jsx lines 108-170) -/

open Classical in
/-- The inference-time 5-feature vector for event `r`: the same features as
training, but "past" is a radius search (`haversineKm ≤ cellKm`) over the full
dataset, App.jsx lines 145-153. -/
noncomputable def inferFeature (P : Params) (rows : List Event) (r : Event) : List ℚ :=
  let t : ℚ := (r.date : ℚ)
  let lookStart : ℚ := t - P.lookbackDays * 24 * 3600 * 1000
  let past := rows.filter fun e => decide
    (lookStart ≤ (e.date : ℚ) ∧ (e.date : ℚ) < t ∧
      haversineKm (e.lat : ℝ) (e.lon : ℝ) (r.lat : ℝ) (r.lon : ℝ) ≤ (P.cellKm : ℝ))
  let cnt := past.length
  let avgMag : ℚ := if cnt = 0 then 0 else ((past.map Event.mag).sum) / cnt
  let lastTime : ℚ :=
    match past.getLast? with
    | some p => (t - (p.date : ℚ)) / 3600000
    | none => 999999
  [r.lat, r.lon, (cnt : ℚ), avgMag, lastTime]

/-- Column `j` of the training feature matrix, as reals. -/
noncomputable def column (X : List (List ℚ)) (j : ℕ) : List ℝ :=
  X.map fun row => ((row.getD j 0 : ℚ) : ℝ)

/-- Applies the frozen normalization parameters fitted on `X` to a single
feature vector (App.jsx line 154: `feat.sub(mean).div(std)`). -/
noncomputable def normalizeFeat (X : List (List ℚ)) (feat : List ℚ) : List ℝ :=
  (List.range 5).map fun j =>
    (((feat.getD j 0 : ℚ) : ℝ) - colMean (column X j)) / stdEps (column X j)

open Classical in
/-- Stable insertion by descending probability (ties keep earlier elements
first, as JS stable sort does). -/
noncomputable def insertByProb (p : Event × ℝ) : List (Event × ℝ) → List (Event × ℝ)
  | [] => [p]
  | x :: xs => if x.2 ≤ p.2 then p :: x :: xs else x :: insertByProb p xs

/-- Stable sort by descending probability (App.jsx line 161). -/
noncomputable def sortByProbDesc : List (Event × ℝ) → List (Event × ℝ)
  | [] => []
  | p :: ps => insertByProb p (sortByProbDesc ps)

/-- Why `trainAndPredict` refused to train. -/
inductive InsufficientKind where
  | rawEvents
  | derivedExamples
deriving DecidableEq

/-- The observable outcome of `trainAndPredict`: the two insufficient-data
alerts (App.jsx lines 112-123), the generic catch-branch status (line 168,
never produced by this pure model but kept so the signals are distinguishable),
or success with the published prediction list and headline record. -/
inductive TrainResult where
  | insufficientData (k : InsufficientKind)
  | trainingError
  | success (preds : List (Event × ℝ)) (next : Option (Event × ℝ))

/-- The events of the published prediction list, in published order. -/
def TrainResult.predEvents : TrainResult → List Event
  | .success preds _ => preds.map Prod.fst
  | _ => []

/-- Shallow embedding of `trainAndPredict`.  `M` is the trained network as an
opaque scoring function on the normalized 5-vector (training itself is
stochastic and outside the model).  The published list is `preds.reverse()`
(in-place in JS, so the headline sort also sees the reversed list). -/
noncomputable def trainAndPredict (M : List ℝ → ℝ) (P : Params) (rows : List Event) :
    TrainResult :=
  if rows.length < 30 then .insufficientData .rawEvents
  else
    let D := buildDataset P rows
    let X := D.map Prod.fst
    if X.length < 30 then .insufficientData .derivedExamples
    else
      let preds := rows.map fun r => (r, M (normalizeFeat X (inferFeature P rows r)))
      let published := preds.reverse
      .success published (sortByProbDesc published).head?

/-! ### Concrete data used by witnesses and counterexamples -/

/-- A trained-model stand-in that scores every vector 0. -/
noncomputable def M0 : List ℝ → ℝ := fun _ => 0

/-- The source's default configuration: cell 50 km, lookback 30 d, horizon 7 d,
threshold M 4.0. -/
def P0 : Params := ⟨50, 30, 7, 4⟩

/-- The configuration of the end-to-end scenario: horizon 35 d, lookback 30 d,
threshold 4.0. -/
def P5 : Params := ⟨50, 30, 35, 4⟩

/-- An event at the origin with the given timestamp and magnitude. -/
def mkEv (t : ℤ) (mag : ℚ) : Event := ⟨t, 0, 0, mag, ""⟩

/-- `n` origin events one day apart, magnitude 3, in ascending time order. -/
def rowsN (n : ℕ) : List Event :=
  (List.range n).map fun k : ℕ => mkEv ((k : ℤ) * 86400000) 3

/-- The three same-cell events of the end-to-end scenario: times `T`,
`T + 10 days`, `T + 40 days`, magnitudes 3.0, 3.0, 5.0. -/
def rows5 (T : ℤ) : List Event :=
  [⟨T, 0, 0, 3, "p"⟩, ⟨T + 864000000, 0, 0, 3, "q"⟩, ⟨T + 3456000000, 0, 0, 5, "r"⟩]

/-- An event at latitude 60°, longitude 1° (where the cosine is exactly 1/2). -/
def e60 : Event := ⟨0, 60, 1, 3, "s"⟩

/-- A row whose DATE string has three non-numeric tokens: its date cannot be
parsed, yet every numeric field is valid. -/
def badRow : RawRow := { DATE := some "aa/bb/cc", LAT := some "1.5", LONG := some "2.5", MI := some "3.5" }

/-! ### Helper lemmas: grouping -/

theorem addToGroups_same {α κ : Type} [DecidableEq κ] (k : κ) (a : α) (xs : List α)
    (rest : List (κ × List α)) :
    addToGroups k a ((k, xs) :: rest) = (k, xs ++ [a]) :: rest := by
  simp [addToGroups]

theorem foldl_addToGroups_const {α κ : Type} [DecidableEq κ] (key : α → κ) (k : κ)
    (l : List α) (xs : List α) (h : ∀ r ∈ l, key r = k) :
    l.foldl (fun acc a => addToGroups (key a) a acc) [(k, xs)] = [(k, xs ++ l)] := by
  induction l generalizing xs with
  | nil => simp
  | cons a l ih =>
    have hk : key a = k := h a (by simp)
    simp only [List.foldl_cons, hk, addToGroups_same]
    rw [ih (xs ++ [a]) (fun r hr => h r (by simp [hr]))]
    simp

theorem groupByKey_const {α κ : Type} [DecidableEq κ] (key : α → κ) (k : κ)
    (l : List α) (hne : l ≠ []) (h : ∀ r ∈ l, key r = k) :
    groupByKey key l = [(k, l)] := by
  cases l with
  | nil => exact absurd rfl hne
  | cons a l =>
    have hk : key a = k := h a (by simp)
    unfold groupByKey
    simp only [List.foldl_cons, addToGroups, hk]
    rw [foldl_addToGroups_const key k l [a] (fun r hr => h r (by simp [hr]))]
    simp

theorem sumLens_addToGroups {α κ : Type} [DecidableEq κ] (k : κ) (a : α)
    (g : List (κ × List α)) :
    ((addToGroups k a g).map fun p => p.2.length).sum
      = ((g.map fun p => p.2.length).sum) + 1 := by
  induction g with
  | nil => simp [addToGroups]
  | cons p rest ih =>
    by_cases hk : k = p.1
    · simp [addToGroups, hk]
      omega
    · simp [addToGroups, hk, ih]
      omega

theorem sumLens_foldl {α κ : Type} [DecidableEq κ] (key : α → κ) (l : List α)
    (g : List (κ × List α)) :
    (((l.foldl (fun acc a => addToGroups (key a) a acc) g).map fun p => p.2.length).sum)
      = ((g.map fun p => p.2.length).sum) + l.length := by
  induction l generalizing g with
  | nil => simp
  | cons a l ih =>
    simp only [List.foldl_cons, List.length_cons]
    rw [ih, sumLens_addToGroups]
    omega

theorem sumLens_groupByKey {α κ : Type} [DecidableEq κ] (key : α → κ) (l : List α) :
    (((groupByKey key l).map fun p => p.2.length).sum) = l.length := by
  unfold groupByKey
  rw [sumLens_foldl]
  simp

theorem ne_nil_addToGroups {α κ : Type} [DecidableEq κ] (k : κ) (a : α)
    (g : List (κ × List α)) (h : ∀ p ∈ g, p.2 ≠ []) :
    ∀ p ∈ addToGroups k a g, p.2 ≠ [] := by
  induction g with
  | nil => simp [addToGroups]
  | cons q rest ih =>
    intro p hp
    by_cases hk : k = q.1
    · simp only [addToGroups, if_pos hk] at hp
      rcases List.mem_cons.mp hp with hp | hp
      · subst hp; simp
      · exact h p (by simp [hp])
    · simp only [addToGroups, if_neg hk] at hp
      rcases List.mem_cons.mp hp with hp | hp
      · subst hp; exact h p (by simp)
      · exact ih (fun q' hq' => h q' (by simp [hq'])) p hp

theorem ne_nil_groupByKey {α κ : Type} [DecidableEq κ] (key : α → κ) (l : List α) :
    ∀ p ∈ groupByKey key l, p.2 ≠ [] := by
  suffices h : ∀ g : List (κ × List α), (∀ p ∈ g, p.2 ≠ []) →
      ∀ p ∈ l.foldl (fun acc a => addToGroups (key a) a acc) g, p.2 ≠ [] by
    exact h [] (by simp)
  induction l with
  | nil => intro g hg; simpa using hg
  | cons a l ih =>
    intro g hg
    simp only [List.foldl_cons]
    exact ih _ (ne_nil_addToGroups (key a) a g hg)

theorem keys_addToGroups {α κ : Type} [DecidableEq κ] (key : α → κ) (a : α)
    (g : List (κ × List α)) (h : ∀ p ∈ g, ∀ x ∈ p.2, key x = p.1) :
    ∀ p ∈ addToGroups (key a) a g, ∀ x ∈ p.2, key x = p.1 := by
  induction g with
  | nil =>
    intro p hp x hx
    simp only [addToGroups, List.mem_singleton] at hp
    subst hp
    simp only [List.mem_singleton] at hx
    subst hx; rfl
  | cons q rest ih =>
    intro p hp x hx
    by_cases hk : key a = q.1
    · simp only [addToGroups, if_pos hk] at hp
      rcases List.mem_cons.mp hp with hp | hp
      · subst hp
        simp only [List.mem_append, List.mem_singleton] at hx
        rcases hx with hx | hx
        · exact h q (by simp) x hx
        · subst hx; exact hk
      · exact h p (by simp [hp]) x hx
    · simp only [addToGroups, if_neg hk] at hp
      rcases List.mem_cons.mp hp with hp | hp
      · subst hp; exact h p (by simp) x hx
      · exact ih (fun q' hq' => h q' (by simp [hq'])) p hp x hx

theorem keys_groupByKey {α κ : Type} [DecidableEq κ] (key : α → κ) (l : List α) :
    ∀ p ∈ groupByKey key l, ∀ x ∈ p.2, key x = p.1 := by
  suffices h : ∀ g : List (κ × List α), (∀ p ∈ g, ∀ x ∈ p.2, key x = p.1) →
      ∀ p ∈ l.foldl (fun acc a => addToGroups (key a) a acc) g, ∀ x ∈ p.2, key x = p.1 by
    exact h [] (by simp)
  induction l with
  | nil => intro g hg; simpa using hg
  | cons a l ih =>
    intro g hg
    simp only [List.foldl_cons]
    exact ih _ (keys_addToGroups key a g hg)

theorem mem_addToGroups_self {α κ : Type} [DecidableEq κ] (k : κ) (a : α)
    (g : List (κ × List α)) :
    ∃ xs, (k, xs) ∈ addToGroups k a g ∧ a ∈ xs := by
  induction g with
  | nil => exact ⟨[a], by simp [addToGroups]⟩
  | cons q rest ih =>
    by_cases hk : k = q.1
    · refine ⟨q.2 ++ [a], ?_, by simp⟩
      simp [addToGroups, hk]
    · obtain ⟨xs, hmem, hax⟩ := ih
      exact ⟨xs, by simp [addToGroups, hk, hmem], hax⟩

theorem mem_addToGroups_mono {α κ : Type} [DecidableEq κ] (k' : κ) (a' : α)
    (g : List (κ × List α)) (k : κ) (xs : List α) (hmem : (k, xs) ∈ g)
    (r : α) (hr : r ∈ xs) :
    ∃ xs', (k, xs') ∈ addToGroups k' a' g ∧ r ∈ xs' := by
  induction g with
  | nil => simp at hmem
  | cons q rest ih =>
    by_cases hk : k' = q.1
    · simp only [addToGroups, if_pos hk]
      rcases List.mem_cons.mp hmem with hq | hq
      · refine ⟨q.2 ++ [a'], ?_, ?_⟩
        · have : k = q.1 := by rw [← hq]
          simp [this]
        · have hx2 : xs = q.2 := by rw [← hq]
          simp [← hx2, hr]
      · exact ⟨xs, by simp [hq], hr⟩
    · simp only [addToGroups, if_neg hk]
      rcases List.mem_cons.mp hmem with hq | hq
      · exact ⟨xs, by simp [hq.symm], hr⟩
      · obtain ⟨xs', hmem', hr'⟩ := ih hq
        exact ⟨xs', by simp [hmem'], hr'⟩

theorem exists_mem_groupByKey {α κ : Type} [DecidableEq κ] (key : α → κ) (l : List α)
    (r : α) (hr : r ∈ l) :
    ∃ xs, (key r, xs) ∈ groupByKey key l ∧ r ∈ xs := by
  suffices h : ∀ g : List (κ × List α),
      (∃ xs, (key r, xs) ∈ g ∧ r ∈ xs) ∨ r ∈ l →
      ∃ xs, (key r, xs) ∈ l.foldl (fun acc a => addToGroups (key a) a acc) g ∧ r ∈ xs by
    exact h [] (Or.inr hr)
  clear hr
  induction l with
  | nil =>
    intro g hg
    rcases hg with hg | hg
    · simpa using hg
    · simp at hg
  | cons a l ih =>
    intro g hg
    simp only [List.foldl_cons]
    apply ih
    rcases hg with ⟨xs, hmem, hrx⟩ | hg
    · exact Or.inl (mem_addToGroups_mono (key a) a g (key r) xs hmem r hrx)
    · rcases List.mem_cons.mp hg with hg | hg
      · subst hg
        exact Or.inl (mem_addToGroups_self (key r) r g)
      · exact Or.inr hg

/-! ### Helper lemmas: sorting and dataset shape -/

theorem insertByDate_perm (e : Event) (l : List Event) :
    List.Perm (insertByDate e l) (e :: l) := by
  induction l with
  | nil => simp [insertByDate]
  | cons x xs ih =>
    by_cases h : e.date ≤ x.date
    · simp [insertByDate, h]
    · simp only [insertByDate, if_neg h]
      exact (ih.cons x).trans (List.Perm.swap e x xs)

theorem sortByDate_perm (l : List Event) : List.Perm (sortByDate l) l := by
  induction l with
  | nil => simp [sortByDate]
  | cons e es ih =>
    exact (insertByDate_perm e (sortByDate es)).trans (ih.cons e)

theorem sortByDate_length (l : List Event) : (sortByDate l).length = l.length :=
  (sortByDate_perm l).length_eq

theorem sortByDate_mem (l : List Event) (a : Event) : a ∈ sortByDate l ↔ a ∈ l :=
  (sortByDate_perm l).mem_iff

theorem sortByDate_of_sorted (l : List Event)
    (h : l.Pairwise fun a b => a.date ≤ b.date) : sortByDate l = l := by
  induction l with
  | nil => rfl
  | cons e es ih =>
    have hes : sortByDate es = es := ih (List.Pairwise.sublist (List.sublist_cons_self e es) h)
    simp only [sortByDate, hes]
    cases es with
    | nil => rfl
    | cons x xs =>
      have hex : e.date ≤ x.date := (List.pairwise_cons.mp h).1 x (by simp)
      simp [insertByDate, hex]

theorem cellExamples_length (P : Params) (cellRows : List Event) :
    (cellExamples P cellRows).length = cellRows.length - 1 := by
  simp [cellExamples, sortByDate_length]

theorem buildDataset_eq_foldr (P : Params) (rows : List Event) :
    buildDataset P rows
      = (groupByGrid P.cellKm rows).foldr (fun c acc => cellExamples P c.2 ++ acc) [] := rfl

theorem foldr_append_length (P : Params) (g : List ((ℤ × ℤ) × List Event)) :
    (g.foldr (fun c acc => cellExamples P c.2 ++ acc) []).length
      = ((g.map fun c => c.2.length - 1).sum) := by
  induction g with
  | nil => rfl
  | cons c rest ih =>
    simp [ih, cellExamples_length]

theorem length_le_sum_of_pos (ns : List ℕ) (h : ∀ n ∈ ns, 1 ≤ n) :
    ns.length ≤ ns.sum := by
  induction ns with
  | nil => simp
  | cons n rest ih =>
    have hn : 1 ≤ n := h n (by simp)
    have := ih (fun m hm => h m (by simp [hm]))
    simp only [List.length_cons, List.sum_cons]
    omega

theorem sum_pred_of_pos (ns : List ℕ) (h : ∀ n ∈ ns, 1 ≤ n) :
    ((ns.map fun n => n - 1).sum) = ns.sum - ns.length := by
  induction ns with
  | nil => rfl
  | cons n rest ih =>
    have hn : 1 ≤ n := h n (by simp)
    have hrest : ∀ m ∈ rest, 1 ≤ m := fun m hm => h m (by simp [hm])
    have hsum : rest.length ≤ rest.sum := length_le_sum_of_pos rest hrest
    simp only [List.map_cons, List.sum_cons, List.length_cons]
    rw [ih hrest]
    omega

theorem buildDataset_length (P : Params) (rows : List Event) :
    (buildDataset P rows).length = rows.length - (groupByGrid P.cellKm rows).length := by
  rw [buildDataset_eq_foldr, foldr_append_length]
  have h1 : ∀ p ∈ groupByGrid P.cellKm rows, p.2 ≠ [] :=
    ne_nil_groupByKey (cellKey P.cellKm) rows
  have h2 : (((groupByGrid P.cellKm rows).map fun p => p.2.length).sum) = rows.length :=
    sumLens_groupByKey (cellKey P.cellKm) rows
  have h3 : ((groupByGrid P.cellKm rows).map fun c => c.2.length - 1)
      = (((groupByGrid P.cellKm rows).map fun p => p.2.length).map fun n => n - 1) := by
    simp [List.map_map, Function.comp]
  rw [h3, sum_pred_of_pos _ (by
    intro n hn
    simp only [List.mem_map] at hn
    obtain ⟨p, hp, hpn⟩ := hn
    have := h1 p hp
    have : p.2.length ≠ 0 := fun h0 => this (List.length_eq_zero.mp h0)
    omega)]
  rw [h2]
  simp

theorem groupByGrid_length_le (P : Params) (rows : List Event) :
    (groupByGrid P.cellKm rows).length ≤ rows.length := by
  have h1 : ∀ p ∈ groupByGrid P.cellKm rows, p.2 ≠ [] :=
    ne_nil_groupByKey (cellKey P.cellKm) rows
  have h2 : (((groupByGrid P.cellKm rows).map fun p => p.2.length).sum) = rows.length :=
    sumLens_groupByKey (cellKey P.cellKm) rows
  have h3 : (groupByGrid P.cellKm rows).length
      ≤ (((groupByGrid P.cellKm rows).map fun p => p.2.length).sum) := by
    have := length_le_sum_of_pos ((groupByGrid P.cellKm rows).map fun p => p.2.length) (by
      intro n hn
      simp only [List.mem_map] at hn
      obtain ⟨p, hp, hpn⟩ := hn
      have hne := h1 p hp
      have : p.2.length ≠ 0 := fun h0 => hne (List.length_eq_zero.mp h0)
      omega)
    simpa using this
  omega

theorem cellKey_origin (cellKm : ℚ) (r : Event) (hla : r.lat = 0) (hlo : r.lon = 0) :
    cellKey cellKm r = (0, 0) := by
  simp [cellKey, hla, hlo]

theorem groupByGrid_origin (cellKm : ℚ) (rows : List Event) (hne : rows ≠ [])
    (h : ∀ r ∈ rows, r.lat = 0 ∧ r.lon = 0) :
    groupByGrid cellKm rows = [((0, 0), rows)] :=
  groupByKey_const (cellKey cellKm) (0, 0) rows hne
    (fun r hr => cellKey_origin cellKm r (h r hr).1 (h r hr).2)

theorem sortByProbDesc_const (l : List (Event × ℝ)) (h : ∀ p ∈ l, p.2 = 0) :
    sortByProbDesc l = l := by
  induction l with
  | nil => rfl
  | cons p ps ih =>
    have hps : sortByProbDesc ps = ps := ih (fun q hq => h q (by simp [hq]))
    simp only [sortByProbDesc, hps]
    cases ps with
    | nil => rfl
    | cons x xs =>
      have hx : x.2 ≤ p.2 := by
        rw [h x (by simp), h p (by simp)]
      simp [insertByProb, hx]

/-! ### Helper lemmas: trainAndPredict branches and list indexing -/

theorem trainAndPredict_raw_gate (M : List ℝ → ℝ) (P : Params) (rows : List Event)
    (h : rows.length < 30) :
    trainAndPredict M P rows = .insufficientData .rawEvents := by
  simp only [trainAndPredict, if_pos h]

theorem trainAndPredict_derived_gate (M : List ℝ → ℝ) (P : Params) (rows : List Event)
    (h1 : ¬ rows.length < 30) (h2 : (buildDataset P rows).length < 30) :
    trainAndPredict M P rows = .insufficientData .derivedExamples := by
  simp only [trainAndPredict, if_neg h1, List.length_map, if_pos h2]

theorem trainAndPredict_eq_success (M : List ℝ → ℝ) (P : Params) (rows : List Event)
    (h1 : ¬ rows.length < 30) (h2 : ¬ (buildDataset P rows).length < 30) :
    trainAndPredict M P rows =
      .success
        ((rows.map fun r =>
          (r, M (normalizeFeat ((buildDataset P rows).map Prod.fst) (inferFeature P rows r)))).reverse)
        (sortByProbDesc ((rows.map fun r =>
          (r, M (normalizeFeat ((buildDataset P rows).map Prod.fst) (inferFeature P rows r)))).reverse)).head? := by
  simp only [trainAndPredict, if_neg h1, List.length_map, if_neg h2]

theorem trainAndPredict_success_inv (M : List ℝ → ℝ) (P : Params) (rows : List Event)
    (preds : List (Event × ℝ)) (next : Option (Event × ℝ))
    (h : trainAndPredict M P rows = .success preds next) :
    preds = (rows.map fun r =>
      (r, M (normalizeFeat ((buildDataset P rows).map Prod.fst) (inferFeature P rows r)))).reverse := by
  by_cases h1 : rows.length < 30
  · rw [trainAndPredict_raw_gate M P rows h1] at h
    exact absurd h (by simp)
  · by_cases h2 : (buildDataset P rows).length < 30
    · rw [trainAndPredict_derived_gate M P rows h1 h2] at h
      exact absurd h (by simp)
    · rw [trainAndPredict_eq_success M P rows h1 h2] at h
      injection h with h h'
      exact h.symm

theorem getElem?_dropLast {α : Type} (l : List α) (i : ℕ) (h : i + 1 < l.length) :
    l.dropLast[i]? = l[i]? := by
  induction l generalizing i with
  | nil => simp at h
  | cons a l ih =>
    cases l with
    | nil => simp at h
    | cons b l' =>
      cases i with
      | zero => simp [List.dropLast]
      | succ j =>
        have hj : j + 1 < (b :: l').length := by
          simpa using h
        have := ih j hj
        simpa [List.dropLast] using this

/-! ### Claim theorems -/

/-- C9: for all coordinate pairs, the great-circle distance `haversineKm` is
non-negative, is zero on identical points, and is symmetric. -/
theorem haversine_nonneg_self_symm (aLat aLon bLat bLon : ℝ) :
    0 ≤ haversineKm aLat aLon bLat bLon ∧
    haversineKm aLat aLon aLat aLon = 0 ∧
    haversineKm aLat aLon bLat bLon = haversineKm bLat bLon aLat aLon := by
  refine ⟨?_, ?_, ?_⟩
  · have h : 0 ≤ Real.arcsin (Real.sqrt
        (Real.sin ((bLat - aLat) * Real.pi / 180 / 2) ^ 2 +
          Real.cos (aLat * Real.pi / 180) * Real.cos (bLat * Real.pi / 180) *
            Real.sin ((bLon - aLon) * Real.pi / 180 / 2) ^ 2)) :=
      Real.arcsin_nonneg.mpr (Real.sqrt_nonneg _)
    have h2 := mul_nonneg (by norm_num : (0:ℝ) ≤ 2 * 6371) h
    simp only [haversineKm]
    exact h2
  · simp [haversineKm]
  · have h1 : Real.sin ((aLat - bLat) * Real.pi / 180 / 2) ^ 2
        = Real.sin ((bLat - aLat) * Real.pi / 180 / 2) ^ 2 := by
      rw [show (aLat - bLat) * Real.pi / 180 / 2 = -((bLat - aLat) * Real.pi / 180 / 2) by ring]
      rw [Real.sin_neg]
      ring
    have h2 : Real.sin ((aLon - bLon) * Real.pi / 180 / 2) ^ 2
        = Real.sin ((bLon - aLon) * Real.pi / 180 / 2) ^ 2 := by
      rw [show (aLon - bLon) * Real.pi / 180 / 2 = -((bLon - aLon) * Real.pi / 180 / 2) by ring]
      rw [Real.sin_neg]
      ring
    simp only [haversineKm]
    congr 2
    rw [h1, h2]
    ring_nf

attribute [local semireducible] Rat.sub Rat.add in
/-- C7: parsing "31/12/2023" (day-first) and "2023-12-31" (year-first) yields
the same JS Date constructor arguments — 31 December 2023, midnight — and a
Buddhist-era year 2566 is normalized to the common-era 2023 by subtracting 543.
Holds for every generic fallback parser since the 3-token branch is taken. -/
theorem date_formats_agree_and_buddhist_year (g : List Char → Option DateParts) :
    parseLocalDate g (some "31/12/2023") none = some (some ⟨2023, 11, 31, 0, 0, 0⟩) ∧
    parseLocalDate g (some "2023-12-31") none = some (some ⟨2023, 11, 31, 0, 0, 0⟩) ∧
    parseLocalDate g (some "31/12/2566") none = some (some ⟨2023, 11, 31, 0, 0, 0⟩) := by
  have h1 : parseLocalDate g (some "31/12/2023") none
      = parseLocalDate (fun _ => none) (some "31/12/2023") none := rfl
  have h2 : parseLocalDate g (some "2023-12-31") none
      = parseLocalDate (fun _ => none) (some "2023-12-31") none := rfl
  have h3 : parseLocalDate g (some "31/12/2566") none
      = parseLocalDate (fun _ => none) (some "31/12/2566") none := rfl
  refine ⟨?_, ?_, ?_⟩
  · rw [h1]
    decide
  · rw [h2]
    decide
  · rw [h3]
    decide

attribute [local semireducible] Rat.sub Rat.add in
/-- C3 (code bug): a row whose DATE string "aa/bb/cc" cannot be parsed into a
valid timestamp is NOT dropped: `parseLocalDate` returns an Invalid Date (inner
`none`), which is a truthy JS object, so the `!dt` filter keeps the row and it
reaches the event dataset with an invalid timestamp. -/
theorem unparseable_date_row_not_dropped (g : List Char → Option DateParts) :
    parseLocalDate g badRow.DATE badRow.TIME = some none ∧
    handleFileRows g [badRow] = [⟨none, mkRat 3 2, mkRat 5 2, mkRat 7 2, "-"⟩] := by
  have h1 : parseLocalDate g badRow.DATE badRow.TIME = some none := rfl
  have h2 : handleFileRows g [badRow] = handleFileRows (fun _ => none) [badRow] := rfl
  refine ⟨h1, ?_⟩
  rw [h2]
  decide

/-- C4: if the raw event count is below 30, or the derived training-example
count is below 30, `trainAndPredict` stops with the matching insufficient-data
signal — distinguishable from the generic training-error signal — and produces
no success value (hence no model and no predictions). -/
theorem insufficient_data_gate (M : List ℝ → ℝ) (P : Params) (rows : List Event)
    (h : rows.length < 30 ∨ (buildDataset P rows).length < 30) :
    ∃ k, trainAndPredict M P rows = .insufficientData k ∧
      trainAndPredict M P rows ≠ .trainingError ∧
      ∀ preds next, trainAndPredict M P rows ≠ .success preds next := by
  by_cases h1 : rows.length < 30
  · exact ⟨.rawEvents, trainAndPredict_raw_gate M P rows h1,
      by simp [trainAndPredict_raw_gate M P rows h1],
      by simp [trainAndPredict_raw_gate M P rows h1]⟩
  · have h2 : (buildDataset P rows).length < 30 := h.resolve_left h1
    exact ⟨.derivedExamples, trainAndPredict_derived_gate M P rows h1 h2,
      by simp [trainAndPredict_derived_gate M P rows h1 h2],
      by simp [trainAndPredict_derived_gate M P rows h1 h2]⟩

/-- Witness for C4: 29 events (below the raw minimum) are refused. -/
theorem insufficient_data_gate_witness :
    ∃ k, trainAndPredict M0 P0 (rowsN 29) = .insufficientData k ∧
      trainAndPredict M0 P0 (rowsN 29) ≠ .trainingError ∧
      ∀ preds next, trainAndPredict M0 P0 (rowsN 29) ≠ .success preds next :=
  insufficient_data_gate M0 P0 (rowsN 29)
    (Or.inl (by rw [show (rowsN 29).length = 29 by simp [rowsN]]; norm_num))

/-- C10: the derived training-example count is the event count minus the number
of grid cells (each of which is nonempty); with exactly 30 events at most 29
examples arise, so the 30-example gate needs at least 31 events. -/
theorem derived_count_events_minus_cells (P : Params) (rows : List Event) :
    (buildDataset P rows).length = rows.length - (groupByGrid P.cellKm rows).length ∧
    (∀ p ∈ groupByGrid P.cellKm rows, p.2 ≠ []) ∧
    (rows.length = 30 → (buildDataset P rows).length ≤ 29) ∧
    (30 ≤ (buildDataset P rows).length → 31 ≤ rows.length) := by
  have hlen := buildDataset_length P rows
  have hne : ∀ p ∈ groupByGrid P.cellKm rows, p.2 ≠ [] :=
    ne_nil_groupByKey (cellKey P.cellKm) rows
  have hsum : (((groupByGrid P.cellKm rows).map fun p => p.2.length).sum) = rows.length :=
    sumLens_groupByKey (cellKey P.cellKm) rows
  have hle := groupByGrid_length_le P rows
  have hpos : rows.length ≠ 0 → 1 ≤ (groupByGrid P.cellKm rows).length := by
    intro hr
    by_contra hc
    push_neg at hc
    have h0 : (groupByGrid P.cellKm rows).length = 0 := by omega
    have he : groupByGrid P.cellKm rows = [] := List.length_eq_zero.mp h0
    rw [he] at hsum
    simp at hsum
    omega
  refine ⟨hlen, hne, ?_, ?_⟩
  · intro h30
    have := hpos (by omega)
    omega
  · intro h30
    have hr : rows.length ≠ 0 := by
      intro h0
      omega
    have := hpos hr
    omega

/-- Witness for C10: a concrete dataset of exactly 30 events yields at most 29
derived examples. -/
theorem derived_count_events_minus_cells_witness :
    (buildDataset P0 (rowsN 30)).length ≤ 29 :=
  (derived_count_events_minus_cells P0 (rowsN 30)).2.2.1 (by simp [rowsN])

/-- C5: for three same-cell events at times `T`, `T + 10 days`, `T + 40 days`
with magnitudes 3.0, 3.0, 5.0, threshold 4.0, horizon 35 days, lookback 30
days, training emits exactly two examples — label 0 for the event at `T`
(its 10-day follower has magnitude 3 < 4 and the magnitude-5 event lies beyond
the 35-day horizon) and label 1 for the event at `T + 10 days` (the magnitude-5
event at `+30` days is inside its window) — and none for the most recent
event. -/
theorem end_to_end_three_event_labels (T : ℤ) :
    (buildDataset P5 (rows5 T)).map Prod.snd = [0, 1] ∧
    (buildDataset P5 (rows5 T)).length = 2 := by
  have hgrid : groupByGrid P5.cellKm (rows5 T) = [((0, 0), rows5 T)] := by
    apply groupByGrid_origin
    · simp [rows5]
    · intro r hr
      simp only [rows5, List.mem_cons, List.not_mem_nil, or_false] at hr
      rcases hr with h | h | h <;> subst h <;> exact ⟨rfl, rfl⟩
  have hsort : sortByDate (rows5 T) = rows5 T := by
    apply sortByDate_of_sorted
    refine List.Pairwise.cons ?_ (List.Pairwise.cons ?_ (List.pairwise_singleton _ _))
    · intro b hb
      simp only [List.mem_cons, List.not_mem_nil, or_false] at hb
      rcases hb with h | h <;> subst h <;> dsimp <;> omega
    · intro b hb
      simp only [List.mem_singleton] at hb
      subst hb
      dsimp
      omega
  have hbd : buildDataset P5 (rows5 T) = cellExamples P5 (rows5 T) := by
    rw [buildDataset_eq_foldr, hgrid]
    simp
  have hce : cellExamples P5 (rows5 T) = (rows5 T).dropLast.map (exampleFor P5 (rows5 T)) := by
    show (sortByDate (rows5 T)).dropLast.map (exampleFor P5 (sortByDate (rows5 T)))
      = (rows5 T).dropLast.map (exampleFor P5 (rows5 T))
    rw [hsort]
  have hl1 : (exampleFor P5 (rows5 T) ⟨T, 0, 0, 3, "p"⟩).2 = 0 := by
    simp only [exampleFor, rows5, P5]
    norm_num [List.filter_cons, List.filter_nil]
  have hl2 : (exampleFor P5 (rows5 T) ⟨T + 864000000, 0, 0, 3, "q"⟩).2 = 1 := by
    simp only [exampleFor, rows5, P5]
    norm_num [List.filter_cons, List.filter_nil]
    linarith
  have hdrop : (rows5 T).dropLast = [⟨T, 0, 0, 3, "p"⟩, ⟨T + 864000000, 0, 0, 3, "q"⟩] := rfl
  rw [hbd, hce, hdrop]
  constructor
  · simp only [List.map_cons, List.map_nil]
    rw [hl1, hl2]
  · simp

/-- C1 counterexample: at latitude 60°, longitude 1°, cell size 50 km, the
source's `gx` (dividing by `degLat * cos`) is 4, while the claimed
`gx = floor(lon / (degLat / cos))` is 1 — the spec's divisor disagrees with
the code's. -/
theorem grid_gx_spec_divisor_fails :
    (cellKey 50 e60).1 ≠ gridGxSpec 50 e60 ∧
    (cellKey 50 e60).1 = 4 ∧ gridGxSpec 50 e60 = 1 := by
  have hcos : Real.cos ((e60.lat : ℝ) * Real.pi / 180) = 1 / 2 := by
    rw [show ((e60.lat : ℚ) : ℝ) * Real.pi / 180 = Real.pi / 3 by
      norm_num [e60]
      ring]
    exact Real.cos_pi_div_three
  have h4 : (cellKey 50 e60).1 = 4 := by
    simp only [cellKey, hcos, jsOr]
    rw [if_neg (by norm_num [e60])]
    rw [show ((e60.lon : ℚ) : ℝ) / (((50 : ℚ) : ℝ) / 111 * (1 / 2)) = 111 / 25 by
      norm_num [e60]]
    rw [Int.floor_eq_iff]
    constructor <;> norm_num
  have h1 : gridGxSpec 50 e60 = 1 := by
    simp only [gridGxSpec, hcos]
    rw [if_neg (by norm_num)]
    rw [show ((e60.lon : ℚ) : ℝ) / (((50 : ℚ) : ℝ) / 111 / (1 / 2)) = 111 / 100 by
      norm_num [e60]]
    rw [Int.floor_eq_iff]
    constructor <;> norm_num
  refine ⟨?_, h4, h1⟩
  rw [h4, h1]
  decide

/-- C1 amended: every event of the dataset is assigned to exactly one grid
key, namely `gy = floor(lat / degLat)` with `degLat = cellKm / 111` and
`gx = floor(lon / d)` where `d = degLat * cos(lat in radians)` — the source
multiplies by the cosine rather than dividing — with fallback divisor 1 when
that product is 0. -/
theorem grid_assigns_cells_cos_product (cellKm : ℚ) (rows : List Event) (r : Event)
    (h : r ∈ rows) :
    (∃ xs,
      ((⌊(r.lon : ℝ) / jsOr ((cellKm : ℝ) / 111 * Real.cos ((r.lat : ℝ) * Real.pi / 180)) 1⌋,
        ⌊(r.lat : ℝ) / ((cellKm : ℝ) / 111)⌋), xs) ∈ groupByGrid cellKm rows ∧ r ∈ xs) ∧
    ∀ k xs, (k, xs) ∈ groupByGrid cellKm rows → r ∈ xs →
      k = (⌊(r.lon : ℝ) / jsOr ((cellKm : ℝ) / 111 * Real.cos ((r.lat : ℝ) * Real.pi / 180)) 1⌋,
           ⌊(r.lat : ℝ) / ((cellKm : ℝ) / 111)⌋) := by
  have hkey : cellKey cellKm r
      = (⌊(r.lon : ℝ) / jsOr ((cellKm : ℝ) / 111 * Real.cos ((r.lat : ℝ) * Real.pi / 180)) 1⌋,
         ⌊(r.lat : ℝ) / ((cellKm : ℝ) / 111)⌋) := rfl
  constructor
  · obtain ⟨xs, hmem, hrx⟩ := exists_mem_groupByKey (cellKey cellKm) rows r h
    refine ⟨xs, ?_, hrx⟩
    rw [← hkey]
    exact hmem
  · intro k xs hmem hrx
    rw [← hkey]
    exact (keys_groupByKey (cellKey cellKm) rows (k, xs) hmem r hrx).symm

/-- Witness for the amended C1 at the concrete event `e60` in a one-event
dataset. -/
theorem grid_assigns_cells_cos_product_witness :
    (∃ xs,
      ((⌊(e60.lon : ℝ) / jsOr (((50 : ℚ) : ℝ) / 111 * Real.cos ((e60.lat : ℝ) * Real.pi / 180)) 1⌋,
        ⌊(e60.lat : ℝ) / (((50 : ℚ) : ℝ) / 111)⌋), xs) ∈ groupByGrid 50 [e60] ∧ e60 ∈ xs) ∧
    ∀ k xs, (k, xs) ∈ groupByGrid 50 [e60] → e60 ∈ xs →
      k = (⌊(e60.lon : ℝ) / jsOr (((50 : ℚ) : ℝ) / 111 * Real.cos ((e60.lat : ℝ) * Real.pi / 180)) 1⌋,
           ⌊(e60.lat : ℝ) / (((50 : ℚ) : ℝ) / 111)⌋) :=
  grid_assigns_cells_cos_product 50 [e60] e60 (by simp)

/-! ### Helpers for the concrete 31-event run -/

theorem rowsN_length (n : ℕ) : (rowsN n).length = n := by
  rw [rowsN, List.length_map, List.length_range]

theorem rowsN_origin (n : ℕ) : ∀ r ∈ rowsN n, r.lat = 0 ∧ r.lon = 0 := by
  intro r hr
  simp only [rowsN, List.mem_map] at hr
  obtain ⟨k, _, hk⟩ := hr
  rw [← hk]
  exact ⟨rfl, rfl⟩

theorem rowsN_ne_nil (n : ℕ) (h : n ≠ 0) : rowsN n ≠ [] := by
  intro h0
  have := rowsN_length n
  rw [h0] at this
  simp at this
  omega

theorem buildDataset_single_cell (P : Params) (rows : List Event) (hne : rows ≠ [])
    (h : ∀ r ∈ rows, r.lat = 0 ∧ r.lon = 0) :
    buildDataset P rows = cellExamples P rows := by
  rw [buildDataset_eq_foldr, groupByGrid_origin P.cellKm rows hne h]
  simp

theorem tp_rows31 : trainAndPredict M0 P0 (rowsN 31)
    = .success (((rowsN 31).map fun r => (r, (0 : ℝ))).reverse)
        ((((rowsN 31).map fun r => (r, (0 : ℝ))).reverse).head?) := by
  have h1 : ¬ (rowsN 31).length < 30 := by
    rw [rowsN_length]
    norm_num
  have h2 : ¬ (buildDataset P0 (rowsN 31)).length < 30 := by
    rw [buildDataset_single_cell P0 (rowsN 31) (rowsN_ne_nil 31 (by norm_num)) (rowsN_origin 31),
      cellExamples_length, rowsN_length]
    norm_num
  rw [trainAndPredict_eq_success M0 P0 (rowsN 31) h1 h2]
  have hmap : ((rowsN 31).map fun r =>
      (r, M0 (normalizeFeat ((buildDataset P0 (rowsN 31)).map Prod.fst)
        (inferFeature P0 (rowsN 31) r))))
      = ((rowsN 31).map fun r => (r, (0 : ℝ))) := by
    simp [M0]
  rw [hmap]
  have hsort : sortByProbDesc (((rowsN 31).map fun r => (r, (0 : ℝ))).reverse)
      = ((rowsN 31).map fun r => (r, (0 : ℝ))).reverse := by
    apply sortByProbDesc_const
    intro p hp
    rw [List.mem_reverse] at hp
    simp only [List.mem_map] at hp
    obtain ⟨r, _, hr⟩ := hp
    rw [← hr]
  rw [hsort]

/-- C6 counterexample: on a successful 31-event run the published prediction
list is the REVERSE of the time-sorted input (most recent first), so it does
not preserve the input order. -/
theorem predictions_order_reversed_cex :
    (trainAndPredict M0 P0 (rowsN 31)).predEvents = (rowsN 31).reverse ∧
    (rowsN 31).reverse ≠ rowsN 31 := by
  constructor
  · rw [tp_rows31]
    simp only [TrainResult.predEvents, List.map_reverse, List.map_map]
    rw [show (Prod.fst ∘ fun r : Event => (r, (0 : ℝ))) = id from rfl, List.map_id]
  · decide

/-- C6 amended: every trained run produces exactly one probability-annotated
record per input event, but the assembled output list is published in the
reverse of the time-sorted input order (`preds.reverse()`, most recent
first). -/
theorem predictions_one_per_event_reversed (M : List ℝ → ℝ) (P : Params)
    (rows : List Event) (preds : List (Event × ℝ)) (next : Option (Event × ℝ))
    (h : trainAndPredict M P rows = .success preds next) :
    preds.map Prod.fst = rows.reverse ∧ preds.length = rows.length := by
  have hp := trainAndPredict_success_inv M P rows preds next h
  constructor
  · rw [hp]
    simp only [List.map_reverse, List.map_map]
    rw [show (Prod.fst ∘ fun r : Event =>
        (r, M (normalizeFeat ((buildDataset P rows).map Prod.fst) (inferFeature P rows r))))
      = id from rfl, List.map_id]
  · rw [hp]
    simp

/-- Witness for the amended C6 at the concrete 31-event run. -/
theorem predictions_one_per_event_reversed_witness :
    ((((rowsN 31).map fun r => (r, (0 : ℝ))).reverse).map Prod.fst = (rowsN 31).reverse) ∧
    (((rowsN 31).map fun r => (r, (0 : ℝ))).reverse).length = (rowsN 31).length :=
  predictions_one_per_event_reversed M0 P0 (rowsN 31)
    (((rowsN 31).map fun r => (r, (0 : ℝ))).reverse)
    ((((rowsN 31).map fun r => (r, (0 : ℝ))).reverse).head?) tp_rows31

/-! ### Helpers for the normalizer -/

theorem sum_map_sub_const (xs : List ℝ) (c : ℝ) :
    (xs.map fun x => x - c).sum = xs.sum - xs.length * c := by
  induction xs with
  | nil => simp
  | cons a l ih =>
    simp only [List.map_cons, List.sum_cons, List.length_cons, ih]
    push_cast
    ring

theorem sum_map_div_const (xs : List ℝ) (f : ℝ → ℝ) (c : ℝ) :
    (xs.map fun x => f x / c).sum = (xs.map f).sum / c := by
  induction xs with
  | nil => simp
  | cons a l ih =>
    simp only [List.map_cons, List.sum_cons, ih]
    ring

theorem length_ne_zero_real (xs : List ℝ) (h : xs ≠ []) : (xs.length : ℝ) ≠ 0 := by
  have : xs.length ≠ 0 := fun h0 => h (List.length_eq_zero.mp h0)
  exact_mod_cast this

theorem colMean_normalizeCol (xs : List ℝ) (h : xs ≠ []) : colMean (normalizeCol xs) = 0 := by
  have hn := length_ne_zero_real xs h
  unfold colMean normalizeCol
  rw [List.length_map, sum_map_div_const, sum_map_sub_const]
  unfold colMean
  rw [show xs.sum - (xs.length : ℝ) * (xs.sum / xs.length) = 0 by field_simp]
  simp

theorem colVar_nonneg (xs : List ℝ) : 0 ≤ colVar xs := by
  unfold colVar
  apply div_nonneg
  · apply List.sum_nonneg
    intro y hy
    simp only [List.mem_map] at hy
    obtain ⟨x, _, hx⟩ := hy
    rw [← hx]
    positivity
  · positivity

theorem stdOf_nonneg (xs : List ℝ) : 0 ≤ stdOf xs := Real.sqrt_nonneg _

theorem stdEps_pos (xs : List ℝ) : 0 < stdEps xs := by
  have h := stdOf_nonneg xs
  unfold stdEps epsTf
  have h2 : (0 : ℝ) < 1 / 1000000 := by norm_num
  linarith

theorem colVar_normalizeCol (xs : List ℝ) (h : xs ≠ []) :
    colVar (normalizeCol xs) = colVar xs / (stdEps xs) ^ 2 := by
  unfold colVar
  rw [colMean_normalizeCol xs h]
  have hlen : (normalizeCol xs).length = xs.length := by
    unfold normalizeCol
    rw [List.length_map]
  rw [hlen]
  unfold normalizeCol
  rw [List.map_map]
  rw [show ((fun y => (y - 0) ^ 2) ∘ fun x => (x - colMean xs) / stdEps xs)
      = fun x => ((x - colMean xs) ^ 2) / (stdEps xs) ^ 2 from by
    funext x
    simp [Function.comp, div_pow]]
  rw [sum_map_div_const]
  rw [div_right_comm]

theorem stdOf_normalizeCol (xs : List ℝ) (h : xs ≠ []) :
    stdOf (normalizeCol xs) = stdOf xs / stdEps xs := by
  unfold stdOf
  rw [colVar_normalizeCol xs h]
  rw [Real.sqrt_div (colVar_nonneg xs)]
  rw [show Real.sqrt ((stdEps xs) ^ 2) = stdEps xs from
    Real.sqrt_sq (le_of_lt (stdEps_pos xs))]

/-- C8 amended: applying the fitted normalizer to its own fit column gives
mean exactly 0, and standard deviation `σ / (σ + ε)` where `σ` is the
original column standard deviation and `ε = 1e-6`; this is within `ε` of 1
whenever `σ ≥ 1`, but not in general (see the counterexample for a constant
column, where it is 0). -/
theorem normalizer_mean_zero_std_ratio (xs : List ℝ) (h : xs ≠ []) :
    colMean (normalizeCol xs) = 0 ∧
    stdOf (normalizeCol xs) = stdOf xs / (stdOf xs + epsTf) ∧
    (1 ≤ stdOf xs → |stdOf (normalizeCol xs) - 1| ≤ epsTf) := by
  have hm := colMean_normalizeCol xs h
  have hs := stdOf_normalizeCol xs h
  have hpos := stdEps_pos xs
  have hnn := stdOf_nonneg xs
  have heps : (0 : ℝ) < epsTf := by
    unfold epsTf
    norm_num
  have hseq : stdEps xs = stdOf xs + epsTf := rfl
  refine ⟨hm, by rw [hs, hseq], ?_⟩
  intro h1
  rw [hs]
  have hle : stdOf xs / stdEps xs ≤ 1 := by
    rw [div_le_one hpos, hseq]
    linarith
  rw [abs_of_nonpos (by linarith)]
  have heq : -(stdOf xs / stdEps xs - 1) = epsTf / stdEps xs := by
    field_simp
    rw [hseq]
    ring
  rw [heq, div_le_iff₀ hpos, hseq]
  nlinarith

/-- C8 counterexample: fitting on the constant column `[0, 0]` and normalizing
it yields standard deviation 0, which is NOT within `ε = 1e-6` of 1, refuting
the claim that the normalized standard deviations are always ≈ 1 within
epsilon. -/
theorem normalizer_std_not_within_eps_cex :
    ¬ (|stdOf (normalizeCol [(0 : ℝ), 0]) - 1| ≤ epsTf) := by
  have hvar : colVar [(0 : ℝ), 0] = 0 := by
    norm_num [colVar, colMean]
  have hstd : stdOf [(0 : ℝ), 0] = 0 := by
    rw [stdOf, hvar, Real.sqrt_zero]
  have hnorm : stdOf (normalizeCol [(0 : ℝ), 0]) = 0 := by
    rw [stdOf_normalizeCol [(0 : ℝ), 0] (by simp), hstd, zero_div]
  rw [hnorm]
  norm_num [epsTf]

/-- Witness for the amended C8 on the concrete column `[0, 0]`. -/
theorem normalizer_mean_zero_std_ratio_witness :
    colMean (normalizeCol [(0 : ℝ), 0]) = 0 ∧
    stdOf (normalizeCol [(0 : ℝ), 0]) = stdOf [(0 : ℝ), 0] / (stdOf [(0 : ℝ), 0] + epsTf) ∧
    (1 ≤ stdOf [(0 : ℝ), 0] → |stdOf (normalizeCol [(0 : ℝ), 0]) - 1| ≤ epsTf) :=
  normalizer_mean_zero_std_ratio [(0 : ℝ), 0] (by simp)

/-- C2: every grid cell emits one training example per event except the cell's
most recent (last after sorting) event, which emits none — the count is
`cellRows.length - 1` and the i-th example corresponds to the i-th
time-sorted event — and an example at time `t` is labeled 1 exactly when some
same-cell event has timestamp strictly greater than `t` and at most
`t + horizonDays` (in milliseconds) with magnitude ≥ `magThreshold`, else 0. -/
theorem training_examples_per_cell (P : Params) (rows : List Event) (k : ℤ × ℤ)
    (cellRows : List Event) (hmem : (k, cellRows) ∈ groupByGrid P.cellKm rows) :
    (cellExamples P cellRows).length = cellRows.length - 1 ∧
    ∀ (i : ℕ) (ex : List ℚ × ℕ) (cur : Event), (cellExamples P cellRows)[i]? = some ex →
      (sortByDate cellRows)[i]? = some cur →
      ((ex.2 = 1 ↔ ∃ r ∈ cellRows,
          (cur.date : ℚ) < (r.date : ℚ) ∧
          (r.date : ℚ) ≤ (cur.date : ℚ) + P.horizonDays * 86400000 ∧
          P.magThreshold ≤ r.mag) ∧
       (ex.2 = 0 ↔ ¬ ∃ r ∈ cellRows,
          (cur.date : ℚ) < (r.date : ℚ) ∧
          (r.date : ℚ) ≤ (cur.date : ℚ) + P.horizonDays * 86400000 ∧
          P.magThreshold ≤ r.mag)) := by
  refine ⟨cellExamples_length P cellRows, ?_⟩
  intro i ex cur hex hcur
  have hce : cellExamples P cellRows
      = (sortByDate cellRows).dropLast.map (exampleFor P (sortByDate cellRows)) := rfl
  rw [hce, List.getElem?_map] at hex
  cases hd : (sortByDate cellRows).dropLast[i]? with
  | none =>
    rw [hd] at hex
    simp at hex
  | some a =>
    rw [hd] at hex
    simp only [Option.map_some'] at hex
    have hea : ex = exampleFor P (sortByDate cellRows) a := (Option.some.inj hex).symm
    have hi : i < (sortByDate cellRows).dropLast.length := by
      by_contra hc
      push_neg at hc
      rw [List.getElem?_eq_none_iff.mpr hc] at hd
      exact absurd hd (by simp)
    have hbound : i + 1 < (sortByDate cellRows).length := by
      rw [List.length_dropLast] at hi
      omega
    have hd2 := getElem?_dropLast (sortByDate cellRows) i hbound
    rw [hd, hcur] at hd2
    have hac : a = cur := Option.some.inj hd2
    subst hac
    have hex2 : ex.2 = (if ((sortByDate cellRows).filter fun r => decide
        ((a.date : ℚ) < (r.date : ℚ) ∧
          (r.date : ℚ) ≤ (a.date : ℚ) + P.horizonDays * 24 * 3600 * 1000)).any
        (fun fe => decide (P.magThreshold ≤ fe.mag)) then 1 else 0) := by
      rw [hea]
      rfl
    have hiff : (((sortByDate cellRows).filter fun r => decide
        ((a.date : ℚ) < (r.date : ℚ) ∧
          (r.date : ℚ) ≤ (a.date : ℚ) + P.horizonDays * 24 * 3600 * 1000)).any
        (fun fe => decide (P.magThreshold ≤ fe.mag)) = true)
        ↔ ∃ r ∈ cellRows,
          (a.date : ℚ) < (r.date : ℚ) ∧
          (r.date : ℚ) ≤ (a.date : ℚ) + P.horizonDays * 86400000 ∧
          P.magThreshold ≤ r.mag := by
      rw [List.any_eq_true]
      constructor
      · rintro ⟨r, hrmem, hq⟩
        rw [List.mem_filter] at hrmem
        obtain ⟨hrs, hp⟩ := hrmem
        rw [decide_eq_true_eq] at hp hq
        refine ⟨r, (sortByDate_mem cellRows r).mp hrs, hp.1, ?_, hq⟩
        have h2 := hp.2
        rw [show (P.horizonDays * 24 * 3600 * 1000 : ℚ) = P.horizonDays * 86400000 from by
          ring] at h2
        exact h2
      · rintro ⟨r, hrmem, h1, h2, h3⟩
        refine ⟨r, ?_, by rw [decide_eq_true_eq]; exact h3⟩
        rw [List.mem_filter]
        refine ⟨(sortByDate_mem cellRows r).mpr hrmem, ?_⟩
        rw [decide_eq_true_eq]
        refine ⟨h1, ?_⟩
        rw [show (P.horizonDays * 24 * 3600 * 1000 : ℚ) = P.horizonDays * 86400000 from by ring]
        exact h2
    rw [hex2]
    by_cases hA : ((sortByDate cellRows).filter fun r => decide
        ((a.date : ℚ) < (r.date : ℚ) ∧
          (r.date : ℚ) ≤ (a.date : ℚ) + P.horizonDays * 24 * 3600 * 1000)).any
        (fun fe => decide (P.magThreshold ≤ fe.mag)) = true
    · rw [if_pos hA]
      constructor
      · exact ⟨fun _ => hiff.mp hA, fun _ => rfl⟩
      · constructor
        · intro h0
          exact absurd h0 (by norm_num)
        · intro hcontra
          exact absurd (hiff.mp hA) hcontra
    · rw [if_neg hA]
      constructor
      · constructor
        · intro h0
          exact absurd h0 (by norm_num)
        · intro hcontra
          exact absurd (hiff.mpr hcontra) hA
      · exact ⟨fun _ => fun hc => hA (hiff.mpr hc), fun _ => rfl⟩

/-- Witness for C2: in a two-event single-cell dataset, the cell (found in the
actual grid of the dataset) emits exactly one example. -/
theorem training_examples_per_cell_witness :
    (cellExamples P0 (rowsN 2)).length = (rowsN 2).length - 1 :=
  (training_examples_per_cell P0 (rowsN 2) (0, 0) (rowsN 2) (by
    rw [groupByGrid_origin P0.cellKm (rowsN 2) (rowsN_ne_nil 2 (by norm_num)) (rowsN_origin 2)]
    simp)).1
